import Mathlib

/-
  Verification development for the talk2tables frontend
  (src/frontend/src/App.js and src/frontend/src/TableConfig.js).

  The JavaScript code is shallowly embedded: JS values that flow through the
  chart-inference heuristic are modelled by `JsValue`; the host functions
  `isNaN` (string coercion) and `Date.parse` are implementation-defined in the
  browser, so they are parameters of the model (`JsHost`).  Rows are ordered
  association lists from column names to values, matching JS object key order.
-/

namespace Talk2Tables

/-- A JavaScript value as it appears in a backend-supplied rowset cell.
`num` models finite numbers, `undef` the result of a missing property read. -/
inductive JsValue where
  | num (n : Int)
  | str (s : String)
  | boolean (b : Bool)
  | null
  | undef
deriving DecidableEq

/-- The host (browser) primitives the code relies on: `strIsNaN s` models
`isNaN(s)` for a string `s` (numeric-coercion failure), `strDateParses s`
models `!isNaN(Date.parse(s))`.  Both are implementation-defined. -/
structure JsHost where
  strIsNaN : String → Bool
  strDateParses : String → Bool

/-- `isNaN(v)` for the value kinds in the model: numbers, booleans and `null`
coerce to finite numbers, `undefined` coerces to NaN, strings ask the host. -/
def jsIsNaN (h : JsHost) : JsValue → Bool
  | JsValue.num _ => false
  | JsValue.str s => h.strIsNaN s
  | JsValue.boolean _ => false
  | JsValue.null => false
  | JsValue.undef => true

/-- `typeof v === 'boolean'`. -/
def isBooleanTyped : JsValue → Bool
  | JsValue.boolean _ => true
  | _ => false

/-- `!isNaN(Date.parse(v))`: `Date.parse` coerces its argument to a string;
`"true"`, `"false"`, `"null"` and `"undefined"` do not parse as dates. -/
def jsDateParses (h : JsHost) : JsValue → Bool
  | JsValue.str s => h.strDateParses s
  | JsValue.num n => h.strDateParses (toString n)
  | _ => false

/-- Column classification used by `determineChartType` (App.js:37-39):
`!isNaN(data[0][col]) && typeof data[0][col] !== 'boolean'`. -/
def isNumericVal (h : JsHost) (v : JsValue) : Bool :=
  !(jsIsNaN h v) && !(isBooleanTyped v)

/-- Column classification used by `determineChartType` (App.js:40-42):
`isNaN(data[0][col]) || typeof data[0][col] === 'boolean'`. -/
def isCategoricalVal (h : JsHost) (v : JsValue) : Bool :=
  jsIsNaN h v || isBooleanTyped v

/-- A row of a rowset: a JS record, i.e. an ordered association list from
column names to values (JS string keys keep insertion order). -/
abbrev Row := List (String × JsValue)

/-- Property read `row[col]`: first matching key, `undefined` when absent. -/
def rowGet (row : Row) (col : String) : JsValue :=
  match row with
  | [] => JsValue.undef
  | (k, v) :: rest => if k = col then v else rowGet rest col

/-- String coercion used when a value becomes a JS object key. -/
def jsToString : JsValue → String
  | JsValue.num n => toString n
  | JsValue.str s => s
  | JsValue.boolean b => if b then String.mk ['t','r','u','e'] else String.mk ['f','a','l','s','e']
  | JsValue.null => String.mk ['n','u','l','l']
  | JsValue.undef => String.mk ['u','n','d','e','f','i','n','e','d']

/-- The chart descriptor returned by `determineChartType`: `noChart` models the
JS `null` return, the other constructors model `{type, x, y}` / `{type, category}`. -/
inductive ChartSpec where
  | noChart
  | line (x y : String)
  | bar (x y : String)
  | pie (category : String)
deriving DecidableEq

/-- Shallow embedding of `determineChartType(data)` (App.js:33-73).
Columns are read off the first row; classification uses the first row's
values; branch order mirrors the source: date+numeric gives line, then
categorical+numeric gives bar (≤ 10 rows) or line, then categorical alone
with ≤ 10 rows gives pie, else no chart. -/
def determineChartType (h : JsHost) (data : List Row) : ChartSpec :=
  match data with
  | [] => ChartSpec.noChart
  | row0 :: _ =>
    let columns := row0.map Prod.fst
    let numericColumns := columns.filter fun col => isNumericVal h (rowGet row0 col)
    let categoricalColumns := columns.filter fun col => isCategoricalVal h (rowGet row0 col)
    let possibleDateColumns := categoricalColumns.filter fun col => jsDateParses h (rowGet row0 col)
    match possibleDateColumns, numericColumns with
    | d0 :: _, n0 :: _ => ChartSpec.line d0 n0
    | _, _ =>
      match categoricalColumns, numericColumns with
      | c0 :: _, n0 :: _ =>
        if data.length ≤ 10 then ChartSpec.bar c0 n0 else ChartSpec.line c0 n0
      | _, _ =>
        match categoricalColumns with
        | c0 :: _ => if data.length ≤ 10 then ChartSpec.pie c0 else ChartSpec.noChart
        | [] => ChartSpec.noChart

/-- One step of the pie aggregation `categories[cat] = (categories[cat] || 0) + 1`
(App.js:128-132): increment in place when the key exists, else append with 1. -/
def bumpCount (k : String) : List (String × Nat) → List (String × Nat)
  | [] => [(k, 1)]
  | (k2, n) :: rest => if k2 = k then (k2, n + 1) :: rest else (k2, n) :: bumpCount k rest

/-- The per-category occurrence counts `getChartData` derives for a pie chart
(App.js:128-132); the row value is coerced to a string when used as object key. -/
def pieCounts (data : List Row) (category : String) : List (String × Nat) :=
  data.foldl (fun acc row => bumpCount (jsToString (rowGet row category)) acc) []

/-- Total of all category counts. -/
def countsTotal : List (String × Nat) → Nat
  | [] => 0
  | (_, n) :: rest => n + countsTotal rest

theorem isNumericVal_eq_not_categorical (h : JsHost) (v : JsValue) :
    isNumericVal h v = !(isCategoricalVal h v) := by
  simp [isNumericVal, isCategoricalVal]

theorem isCategoricalVal_eq_not_numeric (h : JsHost) (v : JsValue) :
    isCategoricalVal h v = !(isNumericVal h v) := by
  simp [isNumericVal, isCategoricalVal]

theorem bumpCount_total (k : String) (m : List (String × Nat)) :
    countsTotal (bumpCount k m) = countsTotal m + 1 := by
  induction m with
  | nil => rfl
  | cons p rest ih =>
    obtain ⟨k2, n⟩ := p
    by_cases hk : k2 = k
    · simp [bumpCount, hk, countsTotal]
      omega
    · simp [bumpCount, hk, countsTotal, ih]
      omega

theorem pieCounts_total_aux (data : List Row) (category : String) :
    ∀ acc : List (String × Nat),
      countsTotal (data.foldl (fun acc row => bumpCount (jsToString (rowGet row category)) acc) acc)
        = countsTotal acc + data.length := by
  induction data with
  | nil => intro acc; simp
  | cons row rest ih =>
    intro acc
    simp only [List.foldl_cons, List.length_cons]
    rw [ih, bumpCount_total]
    omega

theorem pieCounts_total (data : List Row) (category : String) :
    countsTotal (pieCounts data category) = data.length := by
  have := pieCounts_total_aux data category []
  simpa [pieCounts, countsTotal] using this

/-
  Chat view state (App.js `Chat` component) and the catalog refresh
  functions `loadTables` / `loadExcelTables` (App.js:200-225).
-/

/-- One entry of the chat view `availableTables` state (App.js:217-221). -/
structure ChatPgTable where
  name : String
  selected : Bool
  tableType : String
deriving DecidableEq

/-- One entry of the chat view `excelTables` state (App.js:203-208). -/
structure ChatExcelTable where
  name : String
  original_filename : String
  expires_at : String
  selected : Bool
deriving DecidableEq

/-- One entry of the `GET /api/tables` response (wire fields the code reads:
`name`, `description`; the column list is not consumed by the modelled code). -/
structure ConfiguredTable where
  name : String
  description : String
deriving DecidableEq

/-- One entry of the `GET /api/excel-tables` response (fields the code reads). -/
structure ExcelTableInfo where
  name : String
  original_filename : String
  expires_at : String
deriving DecidableEq

/-- The new `availableTables` state a `loadTables` refresh installs
(App.js:217-221): the fetched snapshot mapped with `selected: false`,
replacing the previous list wholesale. -/
def loadTablesUpdate (response : List ConfiguredTable) : List ChatPgTable :=
  response.map fun t =>
    { name := t.name, selected := false, tableType := String.mk ['p','o','s','t','g','r','e','s','q','l'] }

/-- The new `excelTables` state a `loadExcelTables` refresh installs
(App.js:203-208): the fetched snapshot mapped with `selected: false`,
replacing the previous list wholesale. -/
def loadExcelTablesUpdate (response : List ExcelTableInfo) : List ChatExcelTable :=
  response.map fun t =>
    { name := t.name, original_filename := t.original_filename,
      expires_at := t.expires_at, selected := false }

/-- A conversation log entry (App.js message objects, discriminated on `type`). -/
inductive ChatMessage where
  | user (content : String)
  | bot (content : String) (sql : String) (data : List Row) (showSql : Bool)
  | error (content : String)
deriving DecidableEq

/-- Outcome of the `POST /api/chat` call: either the response body fields, or a
failure whose optional `detail` models `error.response?.data?.detail`. -/
inductive ChatResponse where
  | success (answer : String) (sql_query : String) (data : List Row)
  | failure (detail : Option String)
deriving DecidableEq

/-- The pieces of chat state `handleSubmit` reads. -/
structure ChatState where
  messages : List ChatMessage
  input : String
  availableTables : List ChatPgTable
  excelTables : List ChatExcelTable

/-- The observable outcome of one `handleSubmit` invocation: the resulting
message log and input text, and how many `POST /api/chat` calls were issued. -/
structure SubmitOutcome where
  messages : List ChatMessage
  input : String
  chatCalls : Nat
deriving DecidableEq

/-- The fixed validation message (App.js:264). -/
def noTableErrorText : String := "Please select at least one table to query."

/-- The generic fallback error message (App.js:292). -/
def fallbackErrorText : String := "Sorry, there was an error processing your request."

/-- The characters `String.prototype.trim` removes: the full ECMAScript
WhiteSpace production (TAB, VT, FF, SP, NBSP, ZWNBSP and the Unicode
space-separator category: U+1680, U+2000..U+200A, U+202F, U+205F, U+3000)
together with the LineTerminator production (LF, CR, LS U+2028, PS U+2029). -/
def isJsWhitespace (c : Char) : Bool :=
  let n := c.toNat
  n == 0x09 || n == 0x0A || n == 0x0B || n == 0x0C || n == 0x0D || n == 0x20 ||
  n == 0xA0 || n == 0x1680 || (0x2000 ≤ n && n ≤ 0x200A) ||
  n == 0x2028 || n == 0x2029 || n == 0x202F || n == 0x205F || n == 0x3000 ||
  n == 0xFEFF

/-- JS `s.trim()`: strip leading and trailing whitespace. -/
def jsTrim (s : String) : String :=
  String.mk (((s.data.dropWhile isJsWhitespace).reverse.dropWhile isJsWhitespace).reverse)

/-- JS `a || b` on an optional string: a missing or empty (falsy) `detail`
falls back to `b`. -/
def jsOrElse (detail : Option String) (fallback : String) : String :=
  match detail with
  | some d => if d = "" then fallback else d
  | none => fallback

/-- `selectedPgTables` (App.js:251-253). -/
def selectedPgTables (st : ChatState) : List String :=
  (st.availableTables.filter fun t => t.selected).map fun t => t.name

/-- `selectedExcelTables` (App.js:255-257). -/
def selectedExcelTables (st : ChatState) : List String :=
  (st.excelTables.filter fun t => t.selected).map fun t => t.name

/-- `allSelectedTables` (App.js:259). -/
def allSelectedTables (st : ChatState) : List String :=
  selectedPgTables st ++ selectedExcelTables st

/-- Shallow embedding of `handleSubmit` (App.js:247-298).  Blank (whitespace
only) input returns immediately; an empty selection appends the fixed error
message without a network call; otherwise the user message is appended, the
input cleared, one `POST /api/chat` issued, and its success or failure
appended as a bot or error message. -/
def handleSubmit (st : ChatState) (response : ChatResponse) : SubmitOutcome :=
  if jsTrim st.input = "" then
    { messages := st.messages, input := st.input, chatCalls := 0 }
  else if (allSelectedTables st).isEmpty then
    { messages := st.messages ++ [ChatMessage.error noTableErrorText],
      input := st.input, chatCalls := 0 }
  else
    match response with
    | ChatResponse.success answer sql data =>
      { messages := st.messages ++ [ChatMessage.user st.input, ChatMessage.bot answer sql data false],
        input := "", chatCalls := 1 }
    | ChatResponse.failure detail =>
      { messages := st.messages ++
          [ChatMessage.user st.input, ChatMessage.error (jsOrElse detail fallbackErrorText)],
        input := "", chatCalls := 1 }

/-
  TableConfig view (TableConfig.js): analysis-pending classification,
  the add-table operation and the unconfigured-table filter.
-/

/-- JS object property write `m[k] = v`: overwrite in place, else append. -/
def jsSet {α : Type} (k : String) (v : α) : List (String × α) → List (String × α)
  | [] => [(k, v)]
  | (k2, w) :: rest => if k2 = k then (k, v) :: rest else (k2, w) :: jsSet k v rest

/-- JS object property read `m[k]`. -/
def jsGet {α : Type} (m : List (String × α)) (k : String) : Option α :=
  match m with
  | [] => none
  | (k2, v) :: rest => if k2 = k then some v else jsGet rest k

/-- The sentinel description marking a table still under analysis
(TableConfig.js:159). -/
def analyzingSentinel : String := "Analyzing table structure..."

/-- The `newLoadingStates` object built by `loadTables` (TableConfig.js:157-160):
for each fetched table, pending iff its description equals the sentinel. -/
def computeLoadingStates (response : List ConfiguredTable) : List (String × Bool) :=
  response.foldl (fun acc t => jsSet t.name (t.description == analyzingSentinel) acc) []

/-- The state `addTable` reads (TableConfig.js:176-188). -/
structure AddTableState where
  selectedTable : String
  loadingStates : List (String × Bool)

/-- The observable outcome of one `addTable` invocation: how many
`POST /api/tables` calls and `loadTables` refreshes were issued, and the
resulting `selectedTable` and (optimistically updated) `loadingStates`. -/
structure AddTableResult where
  networkPosts : Nat
  refreshes : Nat
  selectedTable : String
  loadingStates : List (String × Bool)

/-- Shallow embedding of `addTable` (TableConfig.js:176-188).  A falsy (empty)
`selectedTable` returns immediately with no call.  Otherwise one POST is
issued; on success the selection is cleared, the table optimistically marked
loading, and one `loadTables` refresh triggered; on failure the state is left
untouched and no refresh runs. -/
def addTable (st : AddTableState) (postSucceeds : Bool) : AddTableResult :=
  if st.selectedTable = "" then
    { networkPosts := 0, refreshes := 0,
      selectedTable := st.selectedTable, loadingStates := st.loadingStates }
  else if postSucceeds then
    { networkPosts := 1, refreshes := 1, selectedTable := "",
      loadingStates := jsSet st.selectedTable true st.loadingStates }
  else
    { networkPosts := 1, refreshes := 0,
      selectedTable := st.selectedTable, loadingStates := st.loadingStates }

/-- `availableUnconfiguredTables` (TableConfig.js:211-213): the dropdown offers
only names not already configured. -/
def availableUnconfiguredTables (availableTables : List String)
    (tables : List ConfiguredTable) : List String :=
  availableTables.filter fun t => !(tables.any fun ct => ct.name == t)

/-
  Claim theorems.
-/

/-- Claim C2: for every non-empty rowset whose first row has exactly one
categorical column whose value parses as a valid date and exactly one numeric
column, `determineChartType` returns a line chart with the date-like column as
x and the numeric column as y, regardless of the order of the two columns in
the record. -/
theorem chart_line_on_date_and_numeric (h : JsHost) (cx cy : String) (vx vy : JsValue)
    (data : List Row) (row0 : Row)
    (hhead : data.head? = some row0)
    (horder : row0 = [(cx, vx), (cy, vy)] ∨ row0 = [(cy, vy), (cx, vx)])
    (hne : cx ≠ cy)
    (hcat : isCategoricalVal h vx = true)
    (hdate : jsDateParses h vx = true)
    (hnum : isNumericVal h vy = true) :
    determineChartType h data = ChartSpec.line cx cy := by
  have hnumx : isNumericVal h vx = false := by
    rw [isNumericVal_eq_not_categorical, hcat]; rfl
  have hcaty : isCategoricalVal h vy = false := by
    rw [isCategoricalVal_eq_not_numeric, hnum]; rfl
  cases data with
  | nil => simp at hhead
  | cons r rest =>
    simp only [List.head?_cons, Option.some.injEq] at hhead
    subst hhead
    rcases horder with hrow | hrow <;> subst hrow <;>
      simp [determineChartType, rowGet, hne, Ne.symm hne, hcat, hdate, hnum, hnumx, hcaty]

/-- Witness for claim C2 at a concrete rowset, in both column orders. -/
theorem chart_line_on_date_and_numeric_witness :
    determineChartType ⟨fun s => !(s == "10"), fun s => s == "2024-01-05"⟩
        [[("day", JsValue.str "2024-01-05"), ("revenue", JsValue.num 10)]]
      = ChartSpec.line "day" "revenue" ∧
    determineChartType ⟨fun s => !(s == "10"), fun s => s == "2024-01-05"⟩
        [[("revenue", JsValue.num 10), ("day", JsValue.str "2024-01-05")]]
      = ChartSpec.line "day" "revenue" :=
  ⟨chart_line_on_date_and_numeric _ "day" "revenue" (JsValue.str "2024-01-05")
      (JsValue.num 10) _ _ rfl (Or.inl rfl) (by decide) rfl rfl rfl,
   chart_line_on_date_and_numeric _ "day" "revenue" (JsValue.str "2024-01-05")
      (JsValue.num 10) _ _ rfl (Or.inr rfl) (by decide) rfl rfl rfl⟩

/-- Claim C3: for every rowset whose first row has exactly one categorical
column that does not parse as a date and exactly one numeric column,
`determineChartType` returns a bar chart on those columns when the row count
is at most 10, and a line chart on the same columns when the row count is 11. -/
theorem chart_bar_small_line_large (h : JsHost) (cx cy : String) (vx vy : JsValue)
    (data : List Row) (row0 : Row)
    (hhead : data.head? = some row0)
    (horder : row0 = [(cx, vx), (cy, vy)] ∨ row0 = [(cy, vy), (cx, vx)])
    (hne : cx ≠ cy)
    (hcat : isCategoricalVal h vx = true)
    (hdate : jsDateParses h vx = false)
    (hnum : isNumericVal h vy = true) :
    (data.length ≤ 10 → determineChartType h data = ChartSpec.bar cx cy) ∧
    (data.length = 11 → determineChartType h data = ChartSpec.line cx cy) := by
  have hnumx : isNumericVal h vx = false := by
    rw [isNumericVal_eq_not_categorical, hcat]; rfl
  have hcaty : isCategoricalVal h vy = false := by
    rw [isCategoricalVal_eq_not_numeric, hnum]; rfl
  cases data with
  | nil => simp at hhead
  | cons r rest =>
    simp only [List.head?_cons, Option.some.injEq] at hhead
    subst hhead
    constructor
    · intro hlen
      simp only [List.length_cons] at hlen
      rcases horder with hrow | hrow <;> subst hrow <;>
        simp [determineChartType, rowGet, hne, Ne.symm hne, hcat, hdate, hnum, hnumx, hcaty] <;>
        omega
    · intro hlen
      simp only [List.length_cons] at hlen
      rcases horder with hrow | hrow <;> subst hrow <;>
        simp [determineChartType, rowGet, hne, Ne.symm hne, hcat, hdate, hnum, hnumx, hcaty] <;>
        omega

/-- Witness for claim C3: a 3-row rowset gives a bar chart and an 11-row
rowset gives a line chart, on the same two columns. -/
theorem chart_bar_small_line_large_witness :
    determineChartType ⟨fun s => !(s == "10"), fun _ => false⟩
        (List.replicate 3 [("product", JsValue.str "Widget"), ("sales", JsValue.num 7)])
      = ChartSpec.bar "product" "sales" ∧
    determineChartType ⟨fun s => !(s == "10"), fun _ => false⟩
        (List.replicate 11 [("product", JsValue.str "Widget"), ("sales", JsValue.num 7)])
      = ChartSpec.line "product" "sales" :=
  ⟨(chart_bar_small_line_large ⟨fun s => !(s == "10"), fun _ => false⟩ "product" "sales" (JsValue.str "Widget")
      (JsValue.num 7)
      (List.replicate 3 [("product", JsValue.str "Widget"), ("sales", JsValue.num 7)])
      [("product", JsValue.str "Widget"), ("sales", JsValue.num 7)]
      (by decide) (Or.inl rfl) (by decide) rfl rfl rfl).1 (by decide),
   (chart_bar_small_line_large ⟨fun s => !(s == "10"), fun _ => false⟩ "product" "sales" (JsValue.str "Widget")
      (JsValue.num 7)
      (List.replicate 11 [("product", JsValue.str "Widget"), ("sales", JsValue.num 7)])
      [("product", JsValue.str "Widget"), ("sales", JsValue.num 7)]
      (by decide) (Or.inl rfl) (by decide) rfl rfl rfl).2 (by decide)⟩

/-- Claim C4: for every rowset whose first row has a single categorical
non-date-parseable column and no numeric column, with row count at most 10,
`determineChartType` returns a pie chart on that column, and the derived
per-category occurrence counts sum to the row count. -/
theorem chart_pie_counts_sum (h : JsHost) (c : String) (v : JsValue)
    (data : List Row) (row0 : Row)
    (hhead : data.head? = some row0)
    (hrow : row0 = [(c, v)])
    (hcat : isCategoricalVal h v = true)
    (hdate : jsDateParses h v = false)
    (hlen : data.length ≤ 10) :
    determineChartType h data = ChartSpec.pie c ∧
    countsTotal (pieCounts data c) = data.length := by
  have hnumv : isNumericVal h v = false := by
    rw [isNumericVal_eq_not_categorical, hcat]; rfl
  refine ⟨?_, pieCounts_total data c⟩
  cases data with
  | nil => simp at hhead
  | cons r rest =>
    simp only [List.head?_cons, Option.some.injEq] at hhead
    simp only [List.length_cons] at hlen
    subst hhead
    subst hrow
    simp [determineChartType, rowGet, hcat, hdate, hnumv]
    omega

/-- Witness for claim C4 at the spec example rowset `status: ok, ok, fail`. -/
theorem chart_pie_counts_sum_witness :
    determineChartType ⟨fun _ => true, fun _ => false⟩
        [[("status", JsValue.str "ok")], [("status", JsValue.str "ok")],
         [("status", JsValue.str "fail")]]
      = ChartSpec.pie "status" ∧
    countsTotal (pieCounts
        [[("status", JsValue.str "ok")], [("status", JsValue.str "ok")],
         [("status", JsValue.str "fail")]] "status") = 3 :=
  chart_pie_counts_sum _ "status" (JsValue.str "ok") _ _ rfl rfl rfl rfl (by decide)

theorem determineChartType_inversion (h : JsHost) (row0 : Row) (rest : List Row) (s : ChartSpec)
    (hs : determineChartType h (row0 :: rest) = s) :
    (∀ x y, s = ChartSpec.bar x y ∨ s = ChartSpec.line x y →
       x ∈ (row0.map Prod.fst).filter (fun col => isCategoricalVal h (rowGet row0 col)) ∧
       y ∈ (row0.map Prod.fst).filter (fun col => isNumericVal h (rowGet row0 col))) ∧
    (∀ c, s = ChartSpec.pie c →
       c ∈ (row0.map Prod.fst).filter (fun col => isCategoricalVal h (rowGet row0 col))) := by
  simp only [determineChartType] at hs
  split at hs
  case h_1 =>
    rename_i d0 dtl n0 ntl heq1 heq2
    subst hs
    constructor
    · intro x y hxy
      rcases hxy with hxy | hxy
      · simp at hxy
      · simp only [ChartSpec.line.injEq] at hxy
        obtain ⟨hx, hy⟩ := hxy
        subst hx; subst hy
        constructor
        · exact List.mem_of_mem_filter (heq1 ▸ List.mem_cons_self d0 dtl)
        · exact heq2 ▸ List.mem_cons_self n0 ntl
    · intro c hc
      simp at hc
  case h_2 =>
    split at hs
    case h_1 =>
      rename_i c0 ctl n0 ntl heq1 heq2
      split at hs <;> subst hs <;> constructor
      · intro x y hxy
        rcases hxy with hxy | hxy
        · simp only [ChartSpec.bar.injEq] at hxy
          obtain ⟨hx, hy⟩ := hxy
          subst hx; subst hy
          exact ⟨heq1 ▸ List.mem_cons_self c0 ctl, heq2 ▸ List.mem_cons_self n0 ntl⟩
        · simp at hxy
      · intro c hc
        simp at hc
      · intro x y hxy
        rcases hxy with hxy | hxy
        · simp at hxy
        · simp only [ChartSpec.line.injEq] at hxy
          obtain ⟨hx, hy⟩ := hxy
          subst hx; subst hy
          exact ⟨heq1 ▸ List.mem_cons_self c0 ctl, heq2 ▸ List.mem_cons_self n0 ntl⟩
      · intro c hc
        simp at hc
    case h_2 =>
      split at hs
      case h_1 =>
        rename_i c0 ctl heq1
        split at hs <;> subst hs <;> constructor
        · intro x y hxy
          rcases hxy with hxy | hxy <;> simp at hxy
        · intro c hc
          simp only [ChartSpec.pie.injEq] at hc
          subst hc
          exact heq1 ▸ List.mem_cons_self c0 ctl
        · intro x y hxy
          rcases hxy with hxy | hxy <;> simp at hxy
        · intro c hc
          simp at hc
      case h_2 =>
        subst hs
        constructor
        · intro x y hxy
          rcases hxy with hxy | hxy <;> simp at hxy
        · intro c hc
          simp at hc


theorem chart_spec_bindings (h : JsHost) (data : List Row) (row0 : Row)
    (hhead : data.head? = some row0) :
    (∀ x y, (determineChartType h data = ChartSpec.bar x y ∨
             determineChartType h data = ChartSpec.line x y) →
       x ≠ y ∧ x ∈ row0.map Prod.fst ∧ y ∈ row0.map Prod.fst ∧
       isCategoricalVal h (rowGet row0 x) = true ∧
       isNumericVal h (rowGet row0 y) = true) ∧
    (∀ c, determineChartType h data = ChartSpec.pie c →
       c ∈ row0.map Prod.fst ∧ isCategoricalVal h (rowGet row0 c) = true) := by
  cases data with
  | nil => simp at hhead
  | cons r rest =>
    simp only [List.head?_cons, Option.some.injEq] at hhead
    subst hhead
    obtain ⟨inv1, inv2⟩ := determineChartType_inversion h r rest (determineChartType h (r :: rest)) rfl
    constructor
    · intro x y hxy
      obtain ⟨hx, hy⟩ := inv1 x y hxy
      simp only [List.mem_filter] at hx hy
      obtain ⟨hxmem, hxcat⟩ := hx
      obtain ⟨hymem, hynum⟩ := hy
      refine ⟨?_, hxmem, hymem, hxcat, hynum⟩
      intro hEq
      subst hEq
      rw [isNumericVal_eq_not_categorical, hxcat] at hynum
      simp at hynum
    · intro c hc
      have hcmem := inv2 c hc
      simp only [List.mem_filter] at hcmem
      exact ⟨hcmem.1, hcmem.2⟩

theorem chart_spec_bindings_witness :
    ("product" : String) ≠ "sales" ∧
    ("product" : String) ∈ ([("product", JsValue.str "Widget"), ("sales", JsValue.num 7)] : Row).map Prod.fst ∧
    isNumericVal ⟨fun s => !(s == "10"), fun _ => false⟩
      (rowGet [("product", JsValue.str "Widget"), ("sales", JsValue.num 7)] "sales") = true := by
  have hmain := chart_spec_bindings ⟨fun s => !(s == "10"), fun _ => false⟩
      [[("product", JsValue.str "Widget"), ("sales", JsValue.num 7)]]
      [("product", JsValue.str "Widget"), ("sales", JsValue.num 7)] rfl
  have hres := hmain.1 "product" "sales" (Or.inl (by decide))
  exact ⟨hres.1, hres.2.1, hres.2.2.2.2⟩

theorem jsGet_jsSet_self {α : Type} (k : String) (v : α) (m : List (String × α)) :
    jsGet (jsSet k v m) k = some v := by
  induction m with
  | nil => simp [jsSet, jsGet]
  | cons p rest ih =>
    obtain ⟨k2, w⟩ := p
    by_cases hk : k2 = k
    · simp [jsSet, hk, jsGet]
    · simp [jsSet, hk, jsGet, ih]

theorem jsGet_jsSet_ne {α : Type} (k q : String) (v : α) (m : List (String × α))
    (h : k ≠ q) : jsGet (jsSet k v m) q = jsGet m q := by
  induction m with
  | nil => simp [jsSet, jsGet, h]
  | cons p rest ih =>
    obtain ⟨k2, w⟩ := p
    by_cases hk : k2 = k
    · subst hk
      simp [jsSet, jsGet, h]
    · simp only [jsSet, if_neg hk]
      by_cases hq : k2 = q
      · simp [jsGet, hq]
      · simp [jsGet, hq, ih]

theorem loadingStates_foldl_notmem (resp : List ConfiguredTable) :
    ∀ (acc : List (String × Bool)) (q : String), (∀ t ∈ resp, t.name ≠ q) →
      jsGet (resp.foldl (fun acc t => jsSet t.name (t.description == analyzingSentinel) acc) acc) q
        = jsGet acc q := by
  induction resp with
  | nil => intro acc q _; rfl
  | cons s ss ih =>
    intro acc q hq
    simp only [List.foldl_cons]
    rw [ih _ q fun t ht => hq t (List.mem_cons_of_mem s ht)]
    exact jsGet_jsSet_ne _ _ _ _ (hq s (List.mem_cons_self s ss))

theorem computeLoadingStates_foldl_jsGet (resp : List ConfiguredTable) :
    ∀ (acc : List (String × Bool)) (t : ConfiguredTable),
      (resp.map fun u => u.name).Nodup → t ∈ resp →
      jsGet (resp.foldl (fun acc u => jsSet u.name (u.description == analyzingSentinel) acc) acc)
          t.name
        = some (t.description == analyzingSentinel) := by
  induction resp with
  | nil => intro acc t _ ht; simp at ht
  | cons s ss ih =>
    intro acc t hnd ht
    simp only [List.map_cons, List.nodup_cons] at hnd
    obtain ⟨hnotin, hnd2⟩ := hnd
    rcases List.mem_cons.mp ht with rfl | hmem
    · simp only [List.foldl_cons]
      have hnames : ∀ u ∈ ss, u.name ≠ t.name := by
        intro u hu hequ
        exact hnotin (hequ ▸ List.mem_map_of_mem (fun x => x.name) hu)
      rw [loadingStates_foldl_notmem ss _ t.name hnames]
      exact jsGet_jsSet_self t.name _ acc
    · simp only [List.foldl_cons]
      exact ih _ t hnd2 hmem

/-- Claim C7: in a fetched persistent-resource catalog snapshot (with the wire
invariant that names are unique), a resource is classified analysis-pending
iff its description equals the literal sentinel string; any other description
classifies it as ready. -/
theorem pending_iff_sentinel (response : List ConfiguredTable) (t : ConfiguredTable)
    (hnd : (response.map fun u => u.name).Nodup) (ht : t ∈ response) :
    (jsGet (computeLoadingStates response) t.name = some true ↔
       t.description = analyzingSentinel) ∧
    (jsGet (computeLoadingStates response) t.name = some false ↔
       t.description ≠ analyzingSentinel) := by
  have hg := computeLoadingStates_foldl_jsGet response [] t hnd ht
  rw [computeLoadingStates, hg]
  constructor
  · simp [beq_iff_eq]
  · simp [beq_eq_false_iff_ne]

/-- Witness for claim C7: a snapshot with one analyzing and one described
table classifies the first as pending and the second as ready. -/
theorem pending_iff_sentinel_witness :
    jsGet (computeLoadingStates
        [⟨"orders", analyzingSentinel⟩, ⟨"users", "Stores user accounts"⟩]) "orders"
      = some true ∧
    jsGet (computeLoadingStates
        [⟨"orders", analyzingSentinel⟩, ⟨"users", "Stores user accounts"⟩]) "users"
      = some false :=
  ⟨(pending_iff_sentinel
      [⟨"orders", analyzingSentinel⟩, ⟨"users", "Stores user accounts"⟩]
      ⟨"orders", analyzingSentinel⟩ (by decide) (by decide)).1.mpr rfl,
   (pending_iff_sentinel
      [⟨"orders", analyzingSentinel⟩, ⟨"users", "Stores user accounts"⟩]
      ⟨"users", "Stores user accounts"⟩ (by decide) (by decide)).2.mpr (by decide)⟩

/-- Claim C5: with a question (non-blank input) and zero selected resources of
either kind, `handleSubmit` issues no network call and appends exactly one
error message, with the fixed text, to the conversation log. -/
theorem submit_empty_selection_error (st : ChatState) (response : ChatResponse)
    (hinput : jsTrim st.input ≠ "")
    (hpg : ∀ t ∈ st.availableTables, t.selected = false)
    (hex : ∀ t ∈ st.excelTables, t.selected = false) :
    handleSubmit st response =
      { messages := st.messages ++ [ChatMessage.error noTableErrorText],
        input := st.input, chatCalls := 0 } := by
  have h1 : st.availableTables.filter (fun t => t.selected) = [] := by
    rw [List.filter_eq_nil_iff]
    intro t ht
    simp [hpg t ht]
  have h2 : st.excelTables.filter (fun t => t.selected) = [] := by
    rw [List.filter_eq_nil_iff]
    intro t ht
    simp [hex t ht]
  have hsel : allSelectedTables st = [] := by
    simp [allSelectedTables, selectedPgTables, selectedExcelTables, h1, h2]
  simp [handleSubmit, hinput, hsel]

/-- Witness for claim C5 at a concrete state with one unselected table. -/
theorem submit_empty_selection_error_witness :
    handleSubmit
        { messages := [], input := "total sales last month",
          availableTables := [⟨"users", false, "postgresql"⟩], excelTables := [] }
        (ChatResponse.success "ignored" "SELECT 1" []) =
      { messages := [ChatMessage.error noTableErrorText],
        input := "total sales last month", chatCalls := 0 } :=
  submit_empty_selection_error
    { messages := [], input := "total sales last month",
      availableTables := [⟨"users", false, "postgresql"⟩], excelTables := [] }
    (ChatResponse.success "ignored" "SELECT 1" []) (by decide)
    (by decide) (by decide)

/-- Claim C9: with blank (empty or whitespace-only) input, `handleSubmit`
returns immediately: no network call and no message of any kind appended,
whatever the selection state. -/
theorem submit_blank_input_noop (st : ChatState) (response : ChatResponse)
    (hinput : jsTrim st.input = "") :
    handleSubmit st response =
      { messages := st.messages, input := st.input, chatCalls := 0 } := by
  simp [handleSubmit, hinput]

/-- Witness for claim C9 at whitespace-only input (including the non-ASCII
blanks NBSP and LINE SEPARATOR, which JS trim strips) with zero selections. -/
theorem submit_blank_input_noop_witness :
    handleSubmit
        { messages := [ChatMessage.user "earlier question"], input := " \u00A0\u2028 ",
          availableTables := [⟨"users", false, "postgresql"⟩], excelTables := [] }
        (ChatResponse.success "ignored" "SELECT 1" []) =
      { messages := [ChatMessage.user "earlier question"], input := " \u00A0\u2028 ",
        chatCalls := 0 } :=
  submit_blank_input_noop
    { messages := [ChatMessage.user "earlier question"], input := " \u00A0\u2028 ",
      availableTables := [⟨"users", false, "postgresql"⟩], excelTables := [] }
    (ChatResponse.success "ignored" "SELECT 1" []) (by decide)

/-- Claim C8: when the backend call fails, exactly one error message is
appended (after the user message), carrying the backend detail when present
and non-empty, else the generic fallback text; exactly one call was issued
and it is not retried. -/
theorem submit_failure_error (st : ChatState) (detail : Option String)
    (hinput : jsTrim st.input ≠ "")
    (hsel : allSelectedTables st ≠ []) :
    handleSubmit st (ChatResponse.failure detail) =
      { messages := st.messages ++
          [ChatMessage.user st.input, ChatMessage.error (jsOrElse detail fallbackErrorText)],
        input := "", chatCalls := 1 } ∧
    (∀ d, detail = some d → d ≠ "" → jsOrElse detail fallbackErrorText = d) ∧
    (detail = none → jsOrElse detail fallbackErrorText = fallbackErrorText) := by
  refine ⟨?_, ?_, ?_⟩
  · cases hAll : allSelectedTables st with
    | nil => exact absurd hAll hsel
    | cons a l => simp [handleSubmit, hinput, hAll]
  · intro d hd hne
    subst hd
    simp [jsOrElse, hne]
  · intro hd
    subst hd
    rfl

/-- Witness for claim C8 at a concrete failing call with a detail message. -/
theorem submit_failure_error_witness :
    handleSubmit
        { messages := [], input := "how many rows",
          availableTables := [],
          excelTables := [⟨"excel_1", "data.xlsx", "2025-01-01T00:00:00Z", true⟩] }
        (ChatResponse.failure (some "Table not found")) =
      { messages := [ChatMessage.user "how many rows",
          ChatMessage.error "Table not found"],
        input := "", chatCalls := 1 } ∧
    jsOrElse (some "Table not found") fallbackErrorText = "Table not found" := by
  have hmain := submit_failure_error
    { messages := [], input := "how many rows",
      availableTables := [],
      excelTables := [⟨"excel_1", "data.xlsx", "2025-01-01T00:00:00Z", true⟩] }
    (some "Table not found") (by decide) (by decide)
  exact ⟨hmain.1, hmain.2.1 "Table not found" rfl (by decide)⟩

/-- Claim C1 (evaluation at the failing input): a catalog refresh whose
fetched snapshot still contains the resource installs `selected := false` for
it — both refresh functions rebuild the list from the snapshot alone and
never consult the previous selection, so a selected resource is silently
deselected. -/
theorem refresh_resets_selection_failing_input :
    ((loadExcelTablesUpdate [⟨"sales_q1", "sales.xlsx", "2025-01-01T00:00:00Z"⟩]).map
        fun t => (t.name, t.selected)) = [("sales_q1", false)] ∧
    ((loadTablesUpdate [⟨"users", "Stores user accounts"⟩]).map
        fun t => (t.name, t.selected)) = [("users", false)] :=
  ⟨rfl, rfl⟩

/-- Claim C6 (amended): an empty name makes `addTable` a no-op with no network
call; an already-configured name is excluded from the selectable options
rather than rejected at call time; on success the resource is immediately
marked analysis-pending and exactly one catalog refresh is triggered. -/
theorem addTable_contract (st : AddTableState) (postSucceeds : Bool)
    (availableTables : List String) (tables : List ConfiguredTable) (name : String) :
    (st.selectedTable = "" →
       addTable st postSucceeds =
         { networkPosts := 0, refreshes := 0,
           selectedTable := st.selectedTable, loadingStates := st.loadingStates }) ∧
    (name ∈ availableUnconfiguredTables availableTables tables →
       ∀ t ∈ tables, t.name ≠ name) ∧
    (st.selectedTable ≠ "" → postSucceeds = true →
       (addTable st postSucceeds).networkPosts = 1 ∧
       (addTable st postSucceeds).refreshes = 1 ∧
       jsGet (addTable st postSucceeds).loadingStates st.selectedTable = some true ∧
       (addTable st postSucceeds).selectedTable = "") := by
  refine ⟨?_, ?_, ?_⟩
  · intro h0
    simp [addTable, h0]
  · intro hmem t ht hEq
    simp only [availableUnconfiguredTables, List.mem_filter, Bool.not_eq_true',
      List.any_eq_false] at hmem
    have := hmem.2 t ht
    simp [hEq] at this
  · intro hne hps
    subst hps
    simp [addTable, hne, jsGet_jsSet_self]

/-- Counterexample to claim C6 as stated: with table `users` already
configured, invoking the add operation with the name `users` does not fail
locally — it issues the network POST (and, on backend success, proceeds). -/
theorem addTable_duplicate_not_rejected :
    (([⟨"users", "People table"⟩] : List ConfiguredTable).any fun ct => ct.name == "users")
      = true ∧
    (addTable ⟨"users", []⟩ true).networkPosts = 1 :=
  ⟨rfl, rfl⟩

/-- Witness for claim C6 at concrete inputs: the empty-name no-op, the
exclusion of configured names from the options, and the optimistic pending
mark plus single refresh on success. -/
theorem addTable_contract_witness :
    (addTable ⟨"", [("a", false)]⟩ true =
      { networkPosts := 0, refreshes := 0, selectedTable := "",
        loadingStates := [("a", false)] }) ∧
    (∀ t ∈ ([⟨"users", "People table"⟩] : List ConfiguredTable), t.name ≠ "orders") ∧
    ((addTable ⟨"orders", []⟩ true).networkPosts = 1 ∧
     (addTable ⟨"orders", []⟩ true).refreshes = 1 ∧
     jsGet (addTable ⟨"orders", []⟩ true).loadingStates "orders" = some true ∧
     (addTable ⟨"orders", []⟩ true).selectedTable = "") :=
  ⟨(addTable_contract ⟨"", [("a", false)]⟩ true [] [] "x").1 rfl,
   (addTable_contract ⟨"orders", []⟩ true ["orders"] [⟨"users", "People table"⟩] "orders").2.1
     (by decide),
   (addTable_contract ⟨"orders", []⟩ true ["orders"] [⟨"users", "People table"⟩] "orders").2.2
     (by decide) rfl⟩

end Talk2Tables
